import Mathlib

/-!
Verification of the LogSources_SigmaRules rule-generation scripts.

The repository is a family of Node.js scripts that synthesize Sigma
detection-rule YAML files from a log-source catalogue, MITRE technique/actor
data and an index of external detection rules.  This file gives a shallow
embedding of the pure decision logic of those scripts — candidate-rule
filtering and selection, the regex-driven field extractor, the
technique/log-source relevance table, detection-block synthesis, identifier
generation, artifact-path construction, process-exit control flow and the
output-directory frame behaviour — and proves or refutes the specified
properties of each.

Modelling conventions for JavaScript semantics, used throughout:
* strings are modelled at the code-point level (`List Char`), faithful for
  the basic-multilingual-plane inputs these scripts handle;
* an optional/missing object field is `Option`, and JS truthiness of a
  string field (absent, or present and empty, are both falsy) is modelled
  explicitly where the code relies on it;
* JS objects used as string-keyed maps are association lists in insertion
  order, matching JS enumeration order for non-integer string keys;
* 32-bit integer coercion (`| 0`, `<<`, `&`) is arithmetic modulo 2^32
  reinterpreted into the signed range.
-/

/-- The set accepted by the JavaScript regex class `\s` (also the
whitespace notion of `String.prototype.trim`): ASCII whitespace plus the
Unicode space separators, line separators and the BOM. -/
def jsWs (c : Char) : Bool :=
  let n := c.toNat
  (9 ≤ n && n ≤ 13) || n == 32 || n == 160 || n == 5760 ||
  (8192 ≤ n && n ≤ 8202) || n == 8232 || n == 8233 || n == 8239 ||
  n == 8287 || n == 12288 || n == 65279

/-- The JavaScript regex class `\w`: ASCII letters, digits and underscore. -/
def jsWordChar (c : Char) : Bool :=
  c.isAlpha || c.isDigit || c == '_'

/-- A single or double quote character, the class `['"]` used by the
extractor regexes. -/
def isQuote (c : Char) : Bool :=
  c == Char.ofNat 39 || c == '"'

/-- ASCII lowercasing of one character.  `String.prototype.toLowerCase`
agrees with this on the ASCII range handled by these scripts. -/
def jsLowerChar (c : Char) : Char :=
  if 'A' ≤ c && c ≤ 'Z' then Char.ofNat (c.toNat + 32) else c

/-- ASCII `toLowerCase` on a whole string. -/
def jsLower (s : String) : String :=
  ⟨s.data.map jsLowerChar⟩

/-- `String.prototype.trim`: strip leading and trailing `jsWs` characters. -/
def trimJs (s : String) : String :=
  ⟨((s.data.dropWhile jsWs).reverse.dropWhile jsWs).reverse⟩

/-- Substring test: does `needle` occur contiguously inside `hay`?  This is
`RegExp.prototype.test` for a regex that is a literal (alternation-free)
pattern. -/
def containsSub (needle : List Char) : List Char → Bool
  | [] => needle.isEmpty
  | c :: rest => needle.isPrefixOf (c :: rest) || containsSub needle rest

/-- `String.prototype.split` with a one-character separator: split into
the (possibly empty) chunks between occurrences of `sep`. -/
def splitOnChar (sep : Char) : List Char → List (List Char)
  | [] => [[]]
  | c :: rest =>
    let r := splitOnChar sep rest
    if c = sep then [] :: r
    else
      match r with
      | h :: t => (c :: h) :: t
      | [] => [[c]]

/-- `query.split('\n')` as a list of strings. -/
def splitNewlines (s : String) : List String :=
  (splitOnChar '\n' s.data).map fun l => ⟨l⟩

/-- `Array.prototype.join` with separator `"\n"`. -/
def joinLines : List String → String
  | [] => ""
  | [l] => l
  | l :: ls => l ++ "\n" ++ joinLines ls

/-- Write through a JS object used as a map: overwrite the value in place
if the key exists, otherwise append the key at the end of the enumeration
order. -/
def jsSet {α : Type} (m : List (String × α)) (k : String) (v : α) :
    List (String × α) :=
  match m with
  | [] => [(k, v)]
  | (k₀, v₀) :: rest =>
    if k₀ = k then (k₀, v) :: rest else (k₀, v₀) :: jsSet rest k v

/-- `if (!m[k]) m[k] = []; m[k].push(v)` on a JS object whose values are
arrays: append `v` to the entry for `k`, creating the entry if absent. -/
def jsPush (m : List (String × List String)) (k : String) (v : String) :
    List (String × List String) :=
  match m with
  | [] => [(k, [v])]
  | (k₀, vs) :: rest =>
    if k₀ = k then (k₀, vs ++ [v]) :: rest else (k₀, vs) :: jsPush rest k v

/-- Append a value to the array of the last key of a JS object
(`Object.keys(m).pop()` names the most recently inserted key); no-op on an
empty object. -/
def jsPushLast (m : List (String × List String)) (v : String) :
    List (String × List String) :=
  match m with
  | [] => []
  | [(k, vs)] => [(k, vs ++ [v])]
  | e :: rest => e :: jsPushLast rest v

/-- JS truthiness of an optional string field: `undefined` and `""` are
falsy. -/
def jsTruthy : Option String → Option String
  | none => none
  | some s => if s = "" then none else some s

/-- `ToInt32`: reduce an integer into the signed 32-bit range, as the JS
operators `<<`, `&` and `| 0` do. -/
def toInt32 (z : Int) : Int :=
  let m := z % 4294967296
  if m < 2147483648 then m else m - 4294967296

/-- A log source from `logsources.json`: a product/service/category triple
with optional per-category field mappings (abstract field name → concrete
field name). -/
structure LogSource where
  product : String
  service : String
  category : String
  fieldMappings : Option (List (String × List (String × String)))
deriving DecidableEq, Repr

/-- An external detection rule from `external-rules-index.json`: source
corpus name, rule name, optional product/service/category hints and the raw
query text. -/
structure ExternalRule where
  source : String
  name : String
  product : Option String
  service : Option String
  category : Option String
  query : Option String
deriving DecidableEq, Repr

namespace Part002

/-!
Embedding of the "Intelligent Sigma Rule Generator" script (unnamed
part_002): external-rule matching (`findMatchingRules`), the line-oriented
field extractor for sigma/splunk queries (`parseDetectionFromQuery`), the
detection-block renderer (`buildDetectionYAML`) and the artifact path of
its emit loop.
-/

/-- Effective capture of the regex `^\s*(\w+)(?:\|[\w]+)?:\s*(.+)$` applied
to one line, paired with the field name.  The match is deterministic: the
leading `\s*` and the `\w+` runs are maximal (shortening them leaves a
character the next regex atom rejects), the optional `|modifier` group
participates exactly when a `|` is followed by word characters and then a
colon, and the line fails to match when nothing follows the colon.  The
returned value is `match[2]` — the rest of the line after the colon with
its leading whitespace consumed by `\s*`, except that a rest consisting
only of whitespace backtracks to capture just its last character. -/
def fieldLineMatch (line : String) : Option (String × String) :=
  let s := line.data.dropWhile jsWs
  let w := s.takeWhile jsWordChar
  if w.isEmpty then none
  else
    let s₁ := s.dropWhile jsWordChar
    let afterColon : Option (List Char) :=
      match s₁ with
      | ':' :: rest => some rest
      | '|' :: rest =>
        let m := rest.takeWhile jsWordChar
        if m.isEmpty then none
        else
          match rest.dropWhile jsWordChar with
          | ':' :: rest₂ => some rest₂
          | _ => none
      | _ => none
    match afterColon with
    | none => none
    | some rest =>
      if rest.isEmpty then none
      else
        let v := rest.dropWhile jsWs
        if v.isEmpty then some (⟨w⟩, ⟨[rest.getLastD ' ']⟩)
        else some (⟨w⟩, ⟨v⟩)

/-- One attempt of the suffix `['"]([^'"]+)['"]?\s*$` (quote present) at a
given position: consume a quote, then the maximal nonempty run of
non-quote characters, then an optional quote followed by only whitespace.
Shortening the greedy capture never repairs a failure, because the
remainder would then start with a non-quote character and still contain
the offending quote, so the maximal run decides the match. -/
def listTryQuoted (u : List Char) : Option String :=
  match u with
  | c :: u' =>
    if isQuote c then
      let cap := u'.takeWhile (fun x => !isQuote x)
      if cap.isEmpty then none
      else
        match u'.dropWhile (fun x => !isQuote x) with
        | [] => some ⟨cap⟩
        | _ :: tail => if tail.all jsWs then some ⟨cap⟩ else none
    else none
  | [] => none

/-- One attempt of the suffix `([^'"]+)['"]?\s*$` (optional quote absent)
at a given position, with the same maximal-run argument as
`listTryQuoted`. -/
def listTryBare (u : List Char) : Option String :=
  let cap := u.takeWhile (fun x => !isQuote x)
  if cap.isEmpty then none
  else
    match u.dropWhile (fun x => !isQuote x) with
    | [] => some ⟨cap⟩
    | _ :: tail => if tail.all jsWs then some ⟨cap⟩ else none

/-- Backtracking over the greedy `\s*` after the dash of the list-item
regex: try consuming `k` whitespace characters for `k` from the maximal
run length down to `0`, at each position preferring the quote-consuming
alternative of `['"]?` (regex optionality is greedy). -/
def listTryFrom (t : List Char) : Nat → Option String
  | 0 => (listTryQuoted t).orElse fun _ => listTryBare t
  | k + 1 =>
    ((listTryQuoted (t.drop (k + 1))).orElse fun _ =>
      listTryBare (t.drop (k + 1))).orElse fun _ => listTryFrom t k

/-- Capture of the list-item regex `^\s*-\s*['"]?([^'"]+)['"]?\s*$` on one
line.  The leading `\s*` is maximal (whitespace is never a dash); the
`\s*` after the dash genuinely backtracks, handled by `listTryFrom`. -/
def listLineMatch (line : String) : Option String :=
  match line.data.dropWhile jsWs with
  | '-' :: t => listTryFrom t (t.takeWhile jsWs).length
  | _ => none

/-- Strip one leading and one trailing quote character:
`value.replace(/^['"]|['"]$/g, '')`. -/
def stripQuotes (s : String) : String :=
  let l₁ := match s.data with
    | c :: cs => if isQuote c then cs else s.data
    | [] => []
  let l₂ := match l₁.reverse with
    | c :: cs => if isQuote c then cs.reverse else l₁
    | [] => []
  ⟨l₂⟩

/-- The second half of the sigma/splunk loop body: the list-item check that
runs unless the field match hit its `continue`. -/
def listStep (det : List (String × List String)) (line : String) :
    List (String × List String) :=
  match listLineMatch line with
  | some item => jsPushLast det item
  | none => det

/-- Body of `for (const line of lines)` in the sigma/splunk branch of
`parseDetectionFromQuery`: try the field regex (a value starting with a
dash hits `continue`, skipping the list-item check; an empty, quoted-away,
`condition` or `selection` value adds nothing but still falls through to
the list-item check), then the list-item regex, which appends its capture
to the most recently inserted field. -/
def procLine (det : List (String × List String)) (line : String) :
    List (String × List String) :=
  match fieldLineMatch line with
  | some (field, m₂) =>
    let value := trimJs m₂
    if value.data.headD ' ' = '-' then det
    else
      let v₂ := stripQuotes value
      let det' :=
        if v₂ ≠ "" ∧ field ≠ "condition" ∧ field ≠ "selection" then
          jsPush det field v₂
        else det
      listStep det' line
  | none => listStep det line

/-- `parseDetectionFromQuery(query, source)` for `source` equal to
`"sigma"` or `"splunk"`: split on newlines, process each line, and return
`null` when no field was recovered (also when the query itself is
falsy). -/
def parseDetectionFromQuery (query : String) :
    Option (List (String × List String)) :=
  if query = "" then none
  else
    let det := (splitNewlines query).foldl procLine []
    if det.isEmpty then none else some det

end Part002

namespace Part002

/-- The product/category filter of `findMatchingRules`: a rule is kept
unless it names a product that is neither `"unknown"` nor the log
source's product, or names a category different from the log source's
category.  An absent or empty product or category is falsy in JS and acts
as a wildcard here. -/
def ruleFilter (ls : LogSource) (rule : ExternalRule) : Bool :=
  (match jsTruthy rule.product with
   | some p => p = "unknown" ∨ p = ls.product
   | none => true) &&
  (match jsTruthy rule.category with
   | some c => c = ls.category
   | none => true)

/-- `findMatchingRules(externalRules, techniqueId, logsource)` after the
per-technique lookup: filter by product/category, then narrow to the rules
whose `service` strictly equals the log source's service when any such
rule exists. -/
def findMatchingRules (techRules : List ExternalRule) (ls : LogSource) :
    List ExternalRule :=
  let filtered := techRules.filter (ruleFilter ls)
  let serviceMatches := filtered.filter fun r => r.service == some ls.service
  if serviceMatches.length > 0 then serviceMatches else filtered

/-- The caller's selection in `main`:
`const bestRule = matchingRules[0] || null`. -/
def bestRule (techRules : List ExternalRule) (ls : LogSource) :
    Option ExternalRule :=
  (findMatchingRules techRules ls).head?

/-- The placeholder detection block emitted when no detection logic is
available. -/
def placeholderYAML : String :=
  "    placeholder: true  # No detection logic available"

/-- `logsource.fieldMappings?.[logsource.category] || \x7b\x7d`: the field
mapping for the log source's category, or the empty map. -/
def fieldMappingsOf (ls : LogSource) : List (String × String) :=
  match ls.fieldMappings with
  | none => []
  | some fms => (fms.lookup ls.category).getD []

/-- `fieldMappings[field] || field`: map an abstract field name through the
log source's mapping, keeping it unchanged when the mapping is absent or
falsy. -/
def mapField (fm : List (String × String)) (field : String) : String :=
  match fm.lookup field with
  | some m => if m = "" then field else m
  | none => field

/-- The lines `buildDetectionYAML` pushes for one detection entry: a single
`field|contains: value` line for a one-element value list, otherwise a
header line followed by up to five `- value` items. -/
def entryLines (fm : List (String × String)) (e : String × List String) :
    List String :=
  let mapped := mapField fm e.1
  if e.2.length = 1 then
    ["    " ++ mapped ++ "|contains: \x27" ++ e.2.headD "" ++ "\x27"]
  else
    ("    " ++ mapped ++ "|contains:") ::
      (e.2.take 5).map fun v => "      - \x27" ++ v ++ "\x27"

/-- `buildDetectionYAML(detection, logsource)`: the placeholder when the
parsed detection is null or empty, otherwise the joined per-entry lines
with fields renamed through the category field mapping. -/
def buildDetectionYAML (detection : Option (List (String × List String)))
    (ls : LogSource) : String :=
  match detection with
  | none => placeholderYAML
  | some det =>
    if det.isEmpty then placeholderYAML
    else joinLines (det.flatMap (entryLines (fieldMappingsOf ls)))

/-- Whitespace-run collapsing, tracking whether the previous character was
whitespace: each maximal run of `jsWs` characters becomes one
underscore. -/
def collapseWsAux (inWs : Bool) : List Char → List Char
  | [] => []
  | c :: cs =>
    if jsWs c then
      if inWs then collapseWsAux true cs else '_' :: collapseWsAux true cs
    else c :: collapseWsAux false cs

/-- `actor.toLowerCase().replace(/\s+/g, '_')`: the actor-directory
sanitization of the part_002 emit loop. -/
def sanitizeActor (actor : String) : String :=
  ⟨collapseWsAux false (jsLower actor).data⟩

/-- The artifact path of the part_002 emit loop, as path segments under the
output base directory:
`[product, service, sanitized actor, lowercased techniqueId + ".yml"]`. -/
def rulePath (ls : LogSource) (actor techniqueId : String) : List String :=
  [ls.product, ls.service, sanitizeActor actor, jsLower techniqueId ++ ".yml"]

end Part002

/-- The technique-identifier gate the generator loops apply before writing
an artifact, the regex `^T\d+(\.\d+)?$`: a `T`, one or more digits, and
optionally a dot followed by one or more digits. -/
def jsTechIdPattern (s : String) : Bool :=
  match s.data with
  | 'T' :: rest =>
    let ds := rest.takeWhile Char.isDigit
    let r := rest.dropWhile Char.isDigit
    !ds.isEmpty &&
      (r.isEmpty ||
        match r with
        | '.' :: r₂ => !r₂.isEmpty && r₂.all Char.isDigit
        | _ => false)
  | _ => false

/-- Modelled from the spec: the specification-side technique-identifier
pattern `T\d{4}(\.\d{3})?` — a `T`, exactly four digits, optionally a dot
and exactly three digits.  Stated from the spec text so that it can be
compared against the looser gate the code applies. -/
def specTechIdPattern (s : String) : Bool :=
  match s.data with
  | 'T' :: a :: b :: c :: d :: rest =>
    ([a, b, c, d].all Char.isDigit) &&
      (rest.isEmpty ||
        match rest with
        | '.' :: x :: y :: z :: [] => [x, y, z].all Char.isDigit
        | _ => false)
  | _ => false

namespace GenerateSigmaRules

/-!
Embedding of `scripts/generate-sigma-rules.js`: the strict product/category
filter and the best-match selection of `findBestMatch`, plus the
process-exit control flow of `main`.
-/

/-- The filter step of `findBestMatch`: the rule must carry a truthy
product other than `"unknown"` equal to the log source product; a truthy
category must equal the log source category; and the query must not
mention a clearly wrong platform for linux/windows/macos log sources. -/
def strictFilter (ls : LogSource) (rule : ExternalRule) : Bool :=
  match jsTruthy rule.product with
  | none => false
  | some p =>
    if p = "unknown" then false
    else if p ≠ ls.product then false
    else if (match jsTruthy rule.category with
             | some c => c != ls.category
             | none => false) then false
    else
      match jsTruthy rule.query with
      | none => true
      | some q =>
        let ql := (jsLower q).data
        if ls.product = "linux" ∧
            (containsSub "google_workspace".data ql ∨
             containsSub "windows".data ql) then false
        else if ls.product = "windows" ∧
            containsSub "google_workspace".data ql then false
        else if ls.product = "macos" ∧
            (containsSub "google_workspace".data ql ∨
             containsSub "windows".data ql) then false
        else true

/-- The rules surviving the strict filter, in their original order. -/
def strictMatches (rules : List ExternalRule) (ls : LogSource) :
    List ExternalRule :=
  rules.filter (strictFilter ls)

/-- `findBestMatch(rules, logsource)`: filter strictly, then return the
first rule whose service equals the log source service, else the first
sigma-source rule, else the first elastic-source rule, else the first
filtered rule; `null` when the filter leaves nothing. -/
def findBestMatch (rules : List ExternalRule) (ls : LogSource) :
    Option ExternalRule :=
  let m := strictMatches rules ls
  if m.isEmpty then none
  else
    match m.find? fun r => r.service == some ls.service with
    | some r => some r
    | none =>
      match m.find? fun r => r.source == "sigma" with
      | some r => some r
      | none =>
        match m.find? fun r => r.source == "elastic" with
        | some r => some r
        | none => m.head?

/-- Process-exit control flow of `main`: a failed `logsources.json` load
exits 1, a failed `external-rules-index.json` load also exits 1, and an
otherwise complete run finishes with status 0. -/
def mainExit (logsourcesLoad : Except String (List LogSource))
    (externalRulesLoad : Except String (List (String × List ExternalRule))) :
    Nat :=
  match logsourcesLoad with
  | Except.error _ => 1
  | Except.ok _ =>
    match externalRulesLoad with
    | Except.error _ => 1
    | Except.ok _ => 0

end GenerateSigmaRules

namespace Part001

/-!
Embedding of the "Sigma Rule Organiser v3" script (unnamed part_001): the
per-classification best-rule pick and the deterministic identifier
`generateUUID(str)` as called from `generateSigmaYAML`.
-/

/-- The pick of `main` within one classification group:
`find(sigma) || find(elastic) || matchedRules[0]`. -/
def pickBestRule (matchedRules : List ExternalRule) : Option ExternalRule :=
  match matchedRules.find? fun r => r.source == "sigma" with
  | some r => some r
  | none =>
    match matchedRules.find? fun r => r.source == "elastic" with
    | some r => some r
    | none => matchedRules.head?

/-- One step of the accumulator loop of `generateUUID`:
`hash = ((hash << 5) - hash) + charCode; hash = hash & hash` with JS
32-bit shift and coercion semantics. -/
def hashStep (h : Int) (c : Nat) : Int :=
  toInt32 (toInt32 (h * 32) - h + c)

/-- The 32-bit string hash accumulated over the character codes of the
input. -/
def hashOf (s : String) : Int :=
  s.data.foldl (fun h c => hashStep h c.toNat) 0

/-- `Math.abs(hash).toString(16).padStart(8, '0')`: lowercase hexadecimal
digits, left-padded with zeros to eight characters. -/
def hexPad8 (n : Nat) : List Char :=
  let ds := Nat.toDigits 16 n
  List.replicate (8 - ds.length) '0' ++ ds

/-- `generateUUID(str)`: assemble the identifier from slices of the padded
hexadecimal hash, with the literal `4` and `a` version/variant nibbles and
the final segment right-padded with zeros to twelve characters. -/
def generateUUID (str : String) : String :=
  let hex := hexPad8 (hashOf str).natAbs
  ⟨hex.take 8 ++ ('-' :: hex.take 4) ++ ('-' :: '4' :: (hex.drop 1).take 3) ++
    ('-' :: 'a' :: (hex.drop 1).take 3) ++
    ('-' :: (hex.take 12 ++ List.replicate (12 - (hex.take 12).length) '0'))⟩

/-- The identifier as `generateSigmaYAML` derives it:
`generateUUID(technique + rule.name + rule.source)`. -/
def sigmaIdOf (technique name source : String) : String :=
  generateUUID (technique ++ name ++ source)

end Part001

namespace IntelligentA

/-!
Embedding of the first `intelligent-sigma-generator.js` variant: the
technique/log-source relevance table of `isTechniqueRelevantToLogsource`
and the artifact path of its emit loop.  Each JS regex in the table is an
alternation of literal fragments tested unanchored against the technique
identifier, represented here as the list of its alternatives.
-/

/-- The classification table mapping a log-source category to its
technique-identifier patterns. -/
def techniqueToLogsource : List (String × List (List String)) := [
  ("process_creation", [
    ["T1059", "T1651", "T1648", "T1059.001", "T1059.002", "T1059.003", "T1059.004", "T1059.005", "T1059.006", "T1059.007", "T1059.008"],
    ["T1218", "T1218.001", "T1218.002", "T1218.003", "T1218.004", "T1218.005", "T1218.007", "T1218.008", "T1218.009", "T1218.010", "T1218.011", "T1218.012", "T1218.013"],
    ["T1047", "T1106", "T1053", "T1129", "T1559", "T1559.001", "T1559.002"],
    ["T1622", "T1574", "T1574.001", "T1574.002", "T1574.004", "T1574.008", "T1574.010", "T1574.011", "T1574.012", "T1574.013"],
    ["T1570", "T1021", "T1021.001", "T1021.002", "T1021.003", "T1021.004", "T1021.005", "T1021.006"],
    ["T1547", "T1547.001", "T1547.002", "T1547.003", "T1547.004", "T1547.005", "T1547.006", "T1547.007", "T1547.008", "T1547.009", "T1547.010", "T1547.011", "T1547.012", "T1547.013", "T1547.014"],
    ["T1543", "T1543.001", "T1543.002", "T1543.003", "T1543.004"],
    ["T1140", "T1036", "T1036.001", "T1036.002", "T1036.003", "T1036.004", "T1036.005", "T1036.006", "T1036.007", "T1036.008", "T1036.009"],
    ["T1057", "T1556", "T1003", "T1003.001", "T1003.002", "T1003.003", "T1003.004", "T1003.005", "T1003.006", "T1003.007", "T1003.008"],
    ["T1134", "T1134.001", "T1134.002", "T1134.003", "T1134.004", "T1134.005"],
    ["T1053", "T1053.001", "T1053.002", "T1053.005", "T1053.006"],
    ["T1548", "T1548.001", "T1548.002", "T1548.003", "T1548.004"]
  ]),
  ("authentication", [
    ["T1110", "T1110.001", "T1110.002", "T1110.003", "T1110.004"],
    ["T1187", "T1040", "T1056", "T1056.001", "T1056.002", "T1056.003", "T1056.004"],
    ["T1056", "T1598", "T1598.001", "T1598.002", "T1598.003", "T1598.004"],
    ["T1111", "T1040", "T1557", "T1557.001", "T1557.002"],
    ["T1040", "T1187", "T1040"],
    ["T1557", "T1557.001", "T1557.002", "T1040"],
    ["T1078", "T1078.001", "T1078.002", "T1078.003", "T1078.004"],
    ["T1556", "T1550", "T1550.001", "T1550.002", "T1550.003", "T1550.004"],
    ["T1552", "T1552.001", "T1552.002", "T1552.005", "T1552.007"],
    ["T1621", "T1111", "T1056.004"]
  ]),
  ("admin_activity", [
    ["T1098", "T1098.001", "T1098.002", "T1098.003", "T1098.004", "T1098.005"],
    ["T1547", "T1548", "T1134", "T1484", "T1484.001", "T1484.002"],
    ["T1556", "T1537", "T1538", "T1526", "T1526.001", "T1199"],
    ["T1069", "T1069.001", "T1069.002", "T1069.003"],
    ["T1482", "T1087", "T1087.001", "T1087.002", "T1087.003", "T1087.004"],
    ["T1201", "T1526", "T1580"],
    ["T1556", "T1098", "T1556.001", "T1556.002", "T1556.003", "T1556.004", "T1556.005"]
  ]),
  ("network_connection", [
    ["T1071", "T1071.001", "T1071.002", "T1071.003", "T1071.004"],
    ["T1008", "T1001", "T1568", "T1568.001", "T1568.002", "T1568.003"],
    ["T1573", "T1573.001", "T1573.002"],
    ["T1090", "T1090.001", "T1090.002", "T1090.003", "T1090.004"],
    ["T1205", "T1205.001", "T1205.002"],
    ["T1041", "T1048", "T1048.001", "T1048.002", "T1048.003"],
    ["T1020", "T1030", "T1537"],
    ["T1567", "T1567.001", "T1567.002"],
    ["T1570", "T1021", "T1021.001", "T1021.002", "T1021.004", "T1021.005", "T1021.006", "T1021.007"],
    ["T1046", "T1040", "T1087", "T1010", "T1217", "T1580", "T1538", "T1526", "T1592", "T1590", "T1598", "T1597"]
  ]),
  ("dns_query", [
    ["T1071.004", "T1568.002", "T1008", "T1090", "T1090.001", "T1090.002"],
    ["T1172", "T1008", "T1568"],
    ["T1041", "T1048", "T1020"],
    ["T1046", "T1087", "T1217", "T1580", "T1526"]
  ]),
  ("file_event", [
    ["T1486", "T1565", "T1565.001", "T1565.002", "T1565.003", "T1561", "T1561.001", "T1561.002", "T1487"],
    ["T1074", "T1074.001", "T1074.002", "T1537", "T1020"],
    ["T1543", "T1547", "T1037", "T1547.001", "T1547.014", "T1136", "T1543.001", "T1543.003"],
    ["T1140", "T1036", "T1036.001", "T1036.005", "T1036.009", "T1027", "T1027.001", "T1027.002", "T1027.003", "T1027.004", "T1027.005", "T1027.006", "T1027.007", "T1027.008", "T1027.009", "T1027.010", "T1027.011"],
    ["T1564", "T1564.001", "T1564.004", "T1564.010", "T1564.012"],
    ["T1005", "T1123", "T1119", "T1115", "T1530", "T1602", "T1213", "T1005"]
  ]),
  ("image_load", [
    ["T1574", "T1574.001", "T1574.002", "T1574.004", "T1574.008", "T1574.010", "T1574.011", "T1574.012", "T1574.013"],
    ["T1547", "T1547.003", "T1103"],
    ["T1036", "T1574", "T1036.005", "T1036.009", "T1027", "T1027.001", "T1027.002", "T1027.003", "T1027.004", "T1027.005", "T1027.006", "T1027.007", "T1027.008", "T1027.009", "T1027.010", "T1027.011"],
    ["T1547.006", "T1547.008"]
  ])]

/-- `pattern.test(techniqueId)` for one table regex: some alternative
occurs as a substring of the identifier. -/
def regexTest (alts : List String) (techniqueId : String) : Bool :=
  alts.any fun lit => containsSub lit.data techniqueId.data

/-- `isTechniqueRelevantToLogsource(techniqueId, techName, logsource)`:
fail open when the category has no table entry, otherwise relevant exactly
when some pattern of the category tests true. -/
def isTechniqueRelevantToLogsource (techniqueId _techName : String)
    (ls : LogSource) : Bool :=
  match techniqueToLogsource.lookup ls.category with
  | none => true
  | some patterns => patterns.any fun alts => regexTest alts techniqueId

/-- The artifact path of the emit loop of this variant, as segments under
the output base directory: the actor name is used verbatim as a directory
and the technique identifier keeps its case in the file name. -/
def rulePath (ls : LogSource) (actor techniqueId : String) : List String :=
  [ls.product, ls.service, actor, techniqueId ++ ".yml"]

end IntelligentA

namespace IntelligentA

/-- Process-exit control flow of `main` in this variant: only a missing or
unparsable `logsources.json` exits 1; the sigma-map, MITRE and ransomware
loads are wrapped in try/catch blocks that log a warning and leave their
accumulators empty, and the run then completes with status 0. -/
def mainExit (logsourcesLoad : Except String (List LogSource))
    (_sigmaMapLoad _mitreLoad _ransomwareLoad : Except String Unit) : Nat :=
  match logsourcesLoad with
  | Except.error _ => 1
  | Except.ok _ => 0

end IntelligentA

/-- A detection value in the generated block: either a bare string or an
array of strings, mirroring the two shapes the generators assign. -/
inductive DVal where
  | str (s : String)
  | arr (vs : List String)
deriving DecidableEq, Repr

namespace IntelligentB

/-!
Embedding of the second `intelligent-sigma-generator.js` variant, whose
generation stage is identical to unnamed part_005: the field-mapping-driven
`buildDetectionForTechnique`, the write paths of its STEP 5 emit loop, and
the process-exit control flow.
-/

/-- The field mapping the function consults:
`logsource.fieldMappings && logsource.fieldMappings[logsource.category]`,
`none` when the mappings object is absent or has no entry for the
category. -/
def fmOf (ls : LogSource) : Option (List (String × String)) :=
  match ls.fieldMappings with
  | none => none
  | some fms => fms.lookup ls.category

/-- `buildDetectionForTechnique(techniqueId, techName, logsource)`: `null`
when the log source has no field mapping for its category; otherwise a
detection object assembled from the category-specific blocks, each with
its own fallback, and a final generic fallback that guarantees at least
one entry. -/
def buildDetectionForTechnique (_techniqueId _techName : String)
    (ls : LogSource) : Option (List (String × DVal)) :=
  match fmOf ls with
  | none => none
  | some fm =>
    let d₀ : List (String × DVal) := []
    let d₁ :=
      if ls.category = "process_creation" then
        let a := match jsTruthy (fm.lookup "Image") with
          | some img =>
            jsSet d₀ (img ++ "|contains")
              (DVal.arr ["cmd.exe", "powershell.exe", "bash", "sh"])
          | none => d₀
        let b := match jsTruthy (fm.lookup "CommandLine") with
          | some cl =>
            jsSet a (cl ++ "|contains")
              (DVal.arr ["-enc", "bypass", "encoded"])
          | none => a
        if b.isEmpty then
          jsSet (jsSet b "Image|contains" (DVal.arr ["cmd", "powershell"]))
            "CommandLine|contains" (DVal.arr ["encoded", "bypass"])
        else b
      else d₀
    let d₂ :=
      if ls.category = "authentication" then
        let a := match jsTruthy (fm.lookup "User") with
          | some u => jsSet d₁ u (DVal.str "user@domain.com")
          | none => d₁
        let b := match jsTruthy (fm.lookup "IpAddress") with
          | some ip =>
            jsSet a (ip ++ "|startswith") (DVal.arr ["192.168", "10.0"])
          | none => a
        if b.isEmpty then jsSet b "User|contains" (DVal.str "admin") else b
      else d₁
    let d₃ :=
      if ls.category = "admin_activity" then
        let a := match jsTruthy (fm.lookup "Actor") with
          | some ac => jsSet d₂ ac (DVal.str "admin@example.com")
          | none => d₂
        let b := match jsTruthy (fm.lookup "EventType") with
          | some et => jsSet a et (DVal.str "admin_role_assigned")
          | none => a
        if b.isEmpty then jsSet b "Actor|contains" (DVal.str "admin") else b
      else d₂
    let d₄ :=
      if d₃.isEmpty then jsSet d₃ "Image|contains" (DVal.str "process")
      else d₃
    some d₄

/-- The write paths produced by the STEP 5 emit loop for a combined
actor/technique map: per technique, per log source, the rule is skipped
when `buildDetectionForTechnique` yields `null`; per (deduplicated) actor,
the technique identifier must pass `jsTechIdPattern`, and the artifact is
then written at `product/service/actor/techniqueId.yml`, actor and
identifier verbatim. -/
def generatedPaths (techniqueNames : List (String × String))
    (actorTechMap : List (String × List String))
    (logsources : List LogSource) : List (List String) :=
  actorTechMap.flatMap fun e =>
    let techniqueId := e.1
    let techName := (techniqueNames.lookup techniqueId).getD techniqueId
    logsources.flatMap fun ls =>
      match buildDetectionForTechnique techniqueId techName ls with
      | none => []
      | some _ =>
        e.2.eraseDups.filterMap fun actor =>
          if jsTechIdPattern techniqueId then
            some [ls.product, ls.service, actor, techniqueId ++ ".yml"]
          else none

end IntelligentB

namespace Part004B

/-!
Process-exit control flow of the second variant in unnamed part_004, which
fetches `enterprise-attack.json` directly: the threat-actor fetch is
caught with a warning, but a failed MITRE technique-graph fetch reaches a
catch block that calls `process.exit(1)`.
-/

/-- Exit status of `main` as a function of its three loads: `logsources.json`
is mandatory (exit 1); the threat-actor TTP fetch only warns; the MITRE
enterprise-attack fetch exits 1 on failure; otherwise the run completes
with status 0. -/
def mainExit (logsourcesLoad : Except String (List LogSource))
    (_actorLoad : Except String Unit) (mitreLoad : Except String Unit) :
    Nat :=
  match logsourcesLoad with
  | Except.error _ => 1
  | Except.ok _ =>
    match mitreLoad with
    | Except.error _ => 1
    | Except.ok _ => 0

end Part004B

namespace FSModel

/-!
A file-system model for the output-directory frame behaviour: a file
system is a finite map from paths (segment lists) to file contents, and a
generator run is `rmSync(baseDir, recursive)` when the code performs it,
followed by the sequence of `writeFileSync` calls of the emit loop.
Directories are not modelled; `mkdirSync` only affects them.
-/

/-- A path as a list of segments. -/
abbrev Path := List String

/-- A file system: an association list from paths to contents; the first
entry for a path is its current content. -/
abbrev FS := List (Path × String)

/-- Content of the file at `p`, if present. -/
def lookupFile (fs : FS) (p : Path) : Option String :=
  (fs.find? fun e => e.1 == p).map fun e => e.2

/-- `writeFileSync`: create or silently overwrite the file at `p`. -/
def writeFile (fs : FS) (p : Path) (c : String) : FS :=
  (p, c) :: fs.filter fun e => e.1 != p

/-- Run the write sequence of an emit loop, in order. -/
def writeAll (fs : FS) (arts : List (Path × String)) : FS :=
  arts.foldl (fun f a => writeFile f a.1 a.2) fs

/-- Is `p` inside the directory `base`? -/
def underDir (base : Path) (p : Path) : Bool :=
  base.isPrefixOf p

/-- `fs.rmSync(baseDir, recursive: true)` (a no-op when the directory does
not exist): drop every file under `base`. -/
def rmTree (base : Path) (fs : FS) : FS :=
  fs.filter fun e => !underDir base e.1

/-- A run of the delete-first generators (`generate-sigma-rules.js`,
part_001, part_002, part_004 and part_005 all remove the output base
directory before their write loop). -/
def cleanRun (base : Path) (fs : FS) (arts : List (Path × String)) : FS :=
  writeAll (rmTree base fs) arts

/-- A run of the part_000 generator, which only creates the base directory
if absent and never removes existing content before its write loop. -/
def part000Run (fs : FS) (arts : List (Path × String)) : FS :=
  writeAll fs arts

/-- The content the run itself writes at `p`: the last write to `p` in the
artifact sequence, if any. -/
def lastWrite (arts : List (Path × String)) (p : Path) : Option String :=
  match arts with
  | [] => none
  | a :: rest =>
    match lastWrite rest p with
    | some c => some c
    | none => if a.1 == p then some a.2 else none

end FSModel

/-! ### Concrete fixtures used by the witnesses and counterexamples -/

/-- A linux/auditd process-creation log source without field mappings. -/
def lsLinuxAuditd : LogSource :=
  ⟨"linux", "auditd", "process_creation", none⟩

/-- A linux/auditd process-creation log source whose category has a field
mapping. -/
def lsAuditdFM : LogSource :=
  ⟨"linux", "auditd", "process_creation",
    some [("process_creation", [("Image", "exe")])]⟩

/-- A splunk-sourced rule carrying only a service hint. -/
def rSplunkSyslog : ExternalRule :=
  ⟨"splunk", "Splunk Rule", none, some "syslog", none, none⟩

/-- A sigma-sourced rule carrying only a service hint. -/
def rSigmaSyslog : ExternalRule :=
  ⟨"sigma", "Sigma Rule", none, some "syslog", none, none⟩

/-- A rule whose product attribute is the literal string `"unknown"`. -/
def rUnknownProd : ExternalRule :=
  ⟨"elastic", "Unknown Product Rule", some "unknown", none, none, none⟩

/-- A sigma rule whose product, service and category all match
`lsLinuxAuditd`. -/
def rLinuxSigma : ExternalRule :=
  ⟨"sigma", "Linux Rule", some "linux", some "auditd",
    some "process_creation", none⟩

/-- The structured query of the extractor round-trip scenario. -/
def c3Query : String :=
  "Image: foo.exe\nCommandLine:\n  - bar\n  - baz"

/-! ### Shared auxiliary lemmas -/

theorem containsSub_iff (n h : List Char) :
    containsSub n h = true ↔ n <:+: h := by
  induction h with
  | nil =>
    simp only [containsSub, List.isEmpty_iff]
    constructor
    · intro hn; simp [hn]
    · intro hn; exact List.eq_nil_of_infix_nil hn
  | cons c t ih =>
    simp only [containsSub, Bool.or_eq_true, List.isPrefixOf_iff_prefix, ih,
      List.infix_cons_iff]

theorem jsSet_ne_nil {α : Type} (m : List (String × α)) (k : String) (v : α) :
    jsSet m k v ≠ [] := by
  cases m with
  | nil => simp [jsSet]
  | cons e rest =>
    simp only [jsSet]
    split <;> simp

theorem joinLines_length_pos (l : String) (ls : List String)
    (h : 0 < l.length) : 0 < (joinLines (l :: ls)).length := by
  cases ls with
  | nil => simpa [joinLines] using h
  | cons x xs =>
    simp only [joinLines, String.length_append]
    omega

theorem takeWhile_all_append (p : Char → Bool) (l r : List Char)
    (h : l.all p = true) : (l ++ r).takeWhile p = l ++ r.takeWhile p := by
  induction l with
  | nil => simp
  | cons c cs ih =>
    simp only [List.all_cons, Bool.and_eq_true] at h
    simp [List.takeWhile, h.1, ih h.2]

theorem dropWhile_all_append (p : Char → Bool) (l r : List Char)
    (h : l.all p = true) : (l ++ r).dropWhile p = r.dropWhile p := by
  induction l with
  | nil => simp
  | cons c cs ih =>
    simp only [List.all_cons, Bool.and_eq_true] at h
    simp [List.dropWhile, h.1, ih h.2]

theorem dropWhile_eq_self_of_head_false (p : Char → Bool) (c : Char)
    (cs : List Char) (h : p c = false) :
    (c :: cs).dropWhile p = c :: cs := by
  simp [List.dropWhile, h]

theorem collapseWsAux_no_ws (b : Bool) (l : List Char) :
    (Part002.collapseWsAux b l).all (fun c => !jsWs c) = true := by
  induction l generalizing b with
  | nil => rfl
  | cons c cs ih =>
    simp only [Part002.collapseWsAux]
    by_cases hc : jsWs c = true
    · rw [if_pos hc]
      cases b with
      | true =>
        rw [if_pos rfl]
        exact ih true
      | false =>
        rw [if_neg (by simp), List.all_cons, Bool.and_eq_true]
        exact ⟨by decide, ih true⟩
    · have h₀ : jsWs c = false := Bool.eq_false_iff.mpr hc
      rw [if_neg hc, List.all_cons, Bool.and_eq_true]
      exact ⟨by simp [h₀], ih false⟩

theorem find?_filter_ne (fs : FSModel.FS) (q p : FSModel.Path) (hqp : q ≠ p) :
    (fs.filter fun e => e.1 != q).find? (fun e => e.1 == p) =
      fs.find? (fun e => e.1 == p) := by
  induction fs with
  | nil => rfl
  | cons e rest ih =>
    rw [List.filter_cons]
    by_cases hep : e.1 = p
    · have hq : (e.1 != q) = true := by
        simp only [bne_iff_ne, ne_eq, hep]
        exact fun h => hqp h.symm
      have hpB : (e.1 == p) = true := beq_iff_eq.mpr hep
      rw [if_pos hq]
      simp only [List.find?, hpB]
    · have hpB : (e.1 == p) = false := by simp [hep]
      by_cases hq : (e.1 != q) = true
      · rw [if_pos hq]
        simp only [List.find?, hpB]
        exact ih
      · rw [if_neg hq]
        simp only [List.find?, hpB]
        exact ih

theorem lookupFile_writeFile (fs : FSModel.FS) (q : FSModel.Path) (c : String)
    (p : FSModel.Path) :
    FSModel.lookupFile (FSModel.writeFile fs q c) p =
      if q = p then some c else FSModel.lookupFile fs p := by
  unfold FSModel.writeFile FSModel.lookupFile
  by_cases h : q = p
  · rw [if_pos h]
    simp only [List.find?, beq_iff_eq.mpr h]
    rfl
  · rw [if_neg h]
    have hB : (q == p) = false := by simp [h]
    simp only [List.find?, hB, find?_filter_ne fs q p h]

theorem lookupFile_writeAll (arts : List (FSModel.Path × String))
    (fs : FSModel.FS) (p : FSModel.Path) :
    FSModel.lookupFile (FSModel.writeAll fs arts) p =
      (FSModel.lastWrite arts p <|> FSModel.lookupFile fs p) := by
  induction arts generalizing fs with
  | nil => rfl
  | cons a rest ih =>
    show FSModel.lookupFile (FSModel.writeAll (FSModel.writeFile fs a.1 a.2)
      rest) p = _
    rw [ih]
    cases hlw : FSModel.lastWrite rest p with
    | some c => simp [FSModel.lastWrite, hlw]
    | none =>
      simp only [FSModel.lastWrite, hlw]
      rw [lookupFile_writeFile]
      by_cases h : a.1 = p <;> simp [h, beq_iff_eq]

theorem lookupFile_rmTree (base : FSModel.Path) (fs : FSModel.FS)
    (p : FSModel.Path) (h : FSModel.underDir base p = true) :
    FSModel.lookupFile (FSModel.rmTree base fs) p = none := by
  induction fs with
  | nil => rfl
  | cons e rest ih =>
    simp only [FSModel.rmTree, List.filter_cons] at ih ⊢
    by_cases he : FSModel.underDir base e.1 = true
    · rw [if_neg (by simp [he])]
      exact ih
    · have hne : e.1 ≠ p := fun hep => he (hep ▸ h)
      rw [if_pos (by simp [Bool.eq_false_iff.mpr he])]
      unfold FSModel.lookupFile at ih ⊢
      have hB : (e.1 == p) = false := by simp [hne]
      simp only [List.find?, hB]
      exact ih

theorem entryLines_head_indent (fm : List (String × String))
    (e : String × List String) :
    ∃ t rest, Part002.entryLines fm e = ("    " ++ t) :: rest := by
  unfold Part002.entryLines
  by_cases h : e.2.length = 1
  · rw [if_pos h]
    exact ⟨_, _, rfl⟩
  · rw [if_neg h]
    exact ⟨_, _, rfl⟩

theorem buildDetectionYAML_ne_empty
    (d : Option (List (String × List String))) (ls : LogSource) :
    Part002.buildDetectionYAML d ls ≠ "" := by
  cases d with
  | none =>
    show Part002.placeholderYAML ≠ ""
    decide
  | some det =>
    simp only [Part002.buildDetectionYAML]
    by_cases h : det.isEmpty
    · rw [if_pos h]
      decide
    · rw [if_neg h]
      cases det with
      | nil => simp at h
      | cons e rest =>
        obtain ⟨t, r, he⟩ :=
          entryLines_head_indent (Part002.fieldMappingsOf ls) e
        rw [List.flatMap_cons, he, List.cons_append]
        intro hcontra
        have hlen : 0 < (joinLines (("    " ++ t) ::
            (r ++ rest.flatMap (Part002.entryLines
              (Part002.fieldMappingsOf ls))))).length :=
          joinLines_length_pos _ _
            (by
              rw [String.length_append]
              have h4 : "    ".length = 4 := by decide
              omega)
        rw [hcontra] at hlen
        exact (by decide : ¬ 0 < String.length "") hlen

theorem finalFallback_ne_nil (l : List (String × DVal)) :
    (if l.isEmpty then jsSet l "Image|contains" (DVal.str "process")
     else l) ≠ [] := by
  by_cases h : l.isEmpty
  · rw [if_pos h]
    exact jsSet_ne_nil _ _ _
  · rw [if_neg h]
    intro hc
    subst hc
    exact h rfl

/-- Claim C1, counterexample: the claim promises that synthesis never
returns null for any (technique, log source) input, with a field-mapping
fallback and then a placeholder; but `buildDetectionForTechnique` of the
intelligent-generator variant returns `null` for a log source without
field mappings, and its caller's `if (!conditions) return` branch observes
exactly that null. -/
theorem c1_counterexample :
    IntelligentB.buildDetectionForTechnique "T1059" "PowerShell"
      lsLinuxAuditd = none := by decide

/-- Claim C1, amended: in the part_002 pipeline `buildDetectionYAML` does
always return a non-empty detection block (a fixed placeholder when the
extracted detection is null or empty); in the `buildDetectionForTechnique`
variant the function instead returns null exactly when the log source has
no field mapping for its category, and whenever a field mapping is present
the returned condition set is non-empty. -/
theorem c1_amended :
    (∀ (d : Option (List (String × List String))) (ls : LogSource),
      Part002.buildDetectionYAML d ls ≠ "") ∧
    (∀ (tid tn : String) (ls : LogSource),
      IntelligentB.buildDetectionForTechnique tid tn ls = none ↔
        IntelligentB.fmOf ls = none) ∧
    (∀ (tid tn : String) (ls : LogSource) (det : List (String × DVal)),
      IntelligentB.buildDetectionForTechnique tid tn ls = some det →
        det ≠ []) := by
  refine ⟨buildDetectionYAML_ne_empty, ?_, ?_⟩
  · intro tid tn ls
    unfold IntelligentB.buildDetectionForTechnique
    cases hfm : IntelligentB.fmOf ls <;> simp
  · intro tid tn ls det h
    unfold IntelligentB.buildDetectionForTechnique at h
    cases hfm : IntelligentB.fmOf ls with
    | none =>
      rw [hfm] at h
      exact absurd h (by simp)
    | some fm =>
      rw [hfm] at h
      have hd := Option.some.inj h
      subst hd
      exact finalFallback_ne_nil _

/-- Claim C1, witness: the amended statement applied at concrete inputs:
the placeholder branch of `buildDetectionYAML` is non-empty, and a log
source with a process-creation field mapping yields a concrete non-empty
condition set. -/
theorem c1_amended_witness :
    Part002.buildDetectionYAML none lsLinuxAuditd ≠ "" ∧
    (IntelligentB.buildDetectionForTechnique "T1486" "Encrypt" lsAuditdFM =
      some [("exe|contains",
        DVal.arr ["cmd.exe", "powershell.exe", "bash", "sh"])] ∧
    ([("exe|contains",
        DVal.arr ["cmd.exe", "powershell.exe", "bash", "sh"])] :
        List (String × DVal)) ≠ []) :=
  ⟨c1_amended.1 none lsLinuxAuditd,
   by decide,
   c1_amended.2.2 "T1486" "Encrypt" lsAuditdFM _ (by decide)⟩

/-- The stale artifact of an earlier run, used by the C10 counterexample. -/
def stalePathC10 : FSModel.Path :=
  ["sigma-rules-intelligent", "windows", "sysmon", "T9999_process_creation.yml"]

/-- The artifact written by the later run in the C10 counterexample. -/
def artsC10 : List (FSModel.Path × String) :=
  [(["sigma-rules-intelligent", "linux", "auditd",
     "T1059_process_creation.yml"], "fresh")]

/-- The pre-run file system of the C10 counterexample. -/
def fsC10 : FSModel.FS := [(stalePathC10, "stale")]

/-- Claim C10, counterexample: the part_000 generator only creates the
output base directory if absent and never removes it, so a run over a file
system holding a stale artifact leaves that artifact in place under the
base directory even though the run never wrote it — the post-run tree does
not contain exactly the files written during the run. -/
theorem c10_counterexample :
    FSModel.underDir ["sigma-rules-intelligent"] stalePathC10 = true ∧
    FSModel.lastWrite artsC10 stalePathC10 = none ∧
    FSModel.lookupFile (FSModel.part000Run fsC10 artsC10) stalePathC10 =
      some "stale" := by decide

/-- Claim C10, amended: the delete-first generator runs
(`generate-sigma-rules.js`, part_001, part_002, part_004 and part_005)
remove the output base directory recursively before writing, so for them
the content of every path under the base directory after a run is exactly
the last write of that run, and artifacts of earlier runs survive only if
regenerated; the part_000 variant does not delete first, and its stale
artifacts persist. -/
theorem c10_amended :
    ∀ (base : FSModel.Path) (fs : FSModel.FS)
      (arts : List (FSModel.Path × String)) (p : FSModel.Path),
      FSModel.underDir base p = true →
      FSModel.lookupFile (FSModel.cleanRun base fs arts) p =
        FSModel.lastWrite arts p := by
  intro base fs arts p h
  unfold FSModel.cleanRun
  rw [lookupFile_writeAll, lookupFile_rmTree base fs p h]
  cases FSModel.lastWrite arts p <;> rfl

/-- Claim C10, witness: the amended statement applied to a concrete run in
which a stale file under the output base is removed and a fresh artifact
is the only survivor. -/
theorem c10_amended_witness :
    FSModel.underDir ["sigma-rules-intelligent"] stalePathC10 = true ∧
    FSModel.lookupFile
      (FSModel.cleanRun ["sigma-rules-intelligent"] fsC10 artsC10)
      stalePathC10 = FSModel.lastWrite artsC10 stalePathC10 :=
  ⟨by decide,
   c10_amended ["sigma-rules-intelligent"] fsC10 artsC10 stalePathC10
     (by decide)⟩

theorem fieldLineMatch_header_none (f : String)
    (hf : (f.data.all fun c => jsWordChar c && !jsWs c) = true) :
    Part002.fieldLineMatch (f ++ ":") = none := by
  have hdata : (f ++ ":").data = f.data ++ [':'] := String.data_append f ":"
  unfold Part002.fieldLineMatch
  rw [hdata]
  cases hfd : f.data with
  | nil => decide
  | cons c cs =>
    rw [hfd, List.all_cons] at hf
    have hhead : (jsWordChar c && !jsWs c) = true ∧
        (cs.all fun x => jsWordChar x && !jsWs x) = true := by
      constructor
      · by_cases hb : (jsWordChar c && !jsWs c) = true
        · exact hb
        · rw [Bool.eq_false_iff.mpr hb, Bool.false_and] at hf
          exact absurd hf (by simp)
      · by_cases hb : (cs.all fun x => jsWordChar x && !jsWs x) = true
        · exact hb
        · rw [Bool.eq_false_iff.mpr hb, Bool.and_false] at hf
          exact absurd hf (by simp)
    have hcns : jsWs c = false := by
      by_cases hw : jsWs c = true
      · rw [hw] at hhead
        exact absurd hhead.1 (by simp)
      · exact Bool.eq_false_iff.mpr hw
    have hallw : ((c :: cs).all jsWordChar) = true := by
      rw [List.all_cons]
      have hcw : jsWordChar c = true := by
        by_cases hb : jsWordChar c = true
        · exact hb
        · rw [Bool.eq_false_iff.mpr hb, Bool.false_and] at hhead
          exact absurd hhead.1 (by simp)
      rw [hcw, Bool.true_and, List.all_eq_true]
      intro x hx
      have := List.all_eq_true.mp hhead.2 x hx
      by_cases hb : jsWordChar x = true
      · exact hb
      · rw [Bool.eq_false_iff.mpr hb, Bool.false_and] at this
        exact absurd this (by simp)
    have h1 : List.dropWhile jsWs (c :: (cs ++ [':'])) = c :: (cs ++ [':']) :=
      dropWhile_eq_self_of_head_false _ _ _ hcns
    have hcolonw : jsWordChar ':' = false := by decide
    have h2 : List.takeWhile jsWordChar (c :: (cs ++ [':'])) = c :: cs := by
      rw [← List.cons_append, takeWhile_all_append _ _ _ hallw]
      simp [List.takeWhile, hcolonw]
    have h3 : List.dropWhile jsWordChar (c :: (cs ++ [':'])) = [':'] := by
      rw [← List.cons_append, dropWhile_all_append _ _ _ hallw]
      simp [List.dropWhile, hcolonw]
    rw [List.cons_append]
    simp only [h1, h2, h3]
    rfl

/-- Claim C3, counterexample: on the round-trip input the extractor does
not produce the claimed map — the bare `CommandLine:` header never matches
the field regex (which requires a value after the colon), so both list
items are appended to `Image`, and `CommandLine` is absent from the
result. -/
theorem c3_counterexample :
    Part002.parseDetectionFromQuery c3Query =
      some [("Image", ["foo.exe", "bar", "baz"])] ∧
    Part002.parseDetectionFromQuery c3Query ≠
      some [("Image", ["foo.exe"]), ("CommandLine", ["bar", "baz"])] ∧
    ((Part002.parseDetectionFromQuery c3Query).getD []).lookup
      "CommandLine" = none := by decide

/-- Claim C3, amended: a `field: value` line opens a field only when a
non-empty value follows the colon; a bare `field:` header line (all word
characters, then a colon, then end of line) matches nothing and opens no
field; and a list-item line is appended to the most recently inserted
field of the detection map.  Consequently the round-trip input yields
`Image` mapped to all three values and no `CommandLine` entry. -/
theorem c3_amended :
    Part002.parseDetectionFromQuery c3Query =
      some [("Image", ["foo.exe", "bar", "baz"])] ∧
    (∀ f : String, (f.data.all fun c => jsWordChar c && !jsWs c) = true →
      Part002.fieldLineMatch (f ++ ":") = none) ∧
    (∀ (det : List (String × List String)) (line v : String),
      Part002.fieldLineMatch line = none →
      Part002.listLineMatch line = some v →
      Part002.procLine det line = jsPushLast det v) := by
  refine ⟨by decide, fieldLineMatch_header_none, ?_⟩
  intro det line v h₁ h₂
  simp [Part002.procLine, Part002.listStep, h₁, h₂]

/-- Claim C3, witness: the amended statement applied to the
`CommandLine:` header line and to the `  - bar` list-item line continuing
the `Image` field. -/
theorem c3_amended_witness :
    (("CommandLine".data.all fun c => jsWordChar c && !jsWs c) = true ∧
     Part002.fieldLineMatch ("CommandLine" ++ ":") = none) ∧
    (Part002.fieldLineMatch "  - bar" = none ∧
     Part002.listLineMatch "  - bar" = some "bar" ∧
     Part002.procLine [("Image", ["foo.exe"])] "  - bar" =
       jsPushLast [("Image", ["foo.exe"])] "bar") :=
  ⟨⟨by decide, c3_amended.2.1 "CommandLine" (by decide)⟩,
   ⟨by decide, by decide,
    c3_amended.2.2 [("Image", ["foo.exe"])] "  - bar" "bar"
      (by decide) (by decide)⟩⟩

/-- The specification-side relevance predicate: a technique is relevant to
a log source when its identifier matches (as a substring, after regex
alternation) at least one pattern registered for the log source category,
and every technique is relevant when the category has no table entry. -/
def relevantSpec (techniqueId : String) (ls : LogSource) : Prop :=
  match IntelligentA.techniqueToLogsource.lookup ls.category with
  | none => True
  | some patterns =>
    ∃ alts ∈ patterns, ∃ lit ∈ alts, lit.data <:+: techniqueId.data

/-- Claim C4, confirmed: `isTechniqueRelevantToLogsource` returns true
exactly when the technique identifier matches at least one pattern
registered for the log source category, and it returns true for every
technique when the category is absent from the classification table (fail
open). -/
theorem c4_relevance_iff :
    ∀ (techniqueId techName : String) (ls : LogSource),
      IntelligentA.isTechniqueRelevantToLogsource techniqueId techName ls =
        true ↔ relevantSpec techniqueId ls := by
  intro tid tn ls
  unfold IntelligentA.isTechniqueRelevantToLogsource relevantSpec
  cases IntelligentA.techniqueToLogsource.lookup ls.category with
  | none => simp
  | some patterns =>
    simp [IntelligentA.regexTest, List.any_eq_true, containsSub_iff]

/-- Claim C6, counterexample: a fetch failure of an optional input does
terminate the process with a non-zero status in two variants — the
part_004 enterprise-attack variant exits 1 when the MITRE technique-graph
fetch fails, and `generate-sigma-rules.js` exits 1 when the external-rule
index fails to load — contradicting the claim that only the log-source
catalogue can cause a non-zero exit. -/
theorem c6_counterexample :
    Part004B.mainExit (Except.ok [lsLinuxAuditd]) (Except.ok ())
      (Except.error "HTTP 500") = 1 ∧
    GenerateSigmaRules.mainExit (Except.ok [lsLinuxAuditd])
      (Except.error "parse failure") = 1 :=
  ⟨rfl, rfl⟩

/-- Claim C6, amended: in the first intelligent-generator variant the
optional sigma-map, MITRE and ransomware loads are best-effort and the run
exits 0 whenever the log-source catalogue loads, whatever happens to them;
but `generate-sigma-rules.js` treats the external-rule index as mandatory
(exit 1 on failure), and the part_004 enterprise-attack variant exits 1
when the MITRE technique-graph fetch fails; a missing log-source catalogue
exits 1 in every variant. -/
theorem c6_amended :
    (∀ (ls : List LogSource) (sm ml rl : Except String Unit),
      IntelligentA.mainExit (Except.ok ls) sm ml rl = 0) ∧
    (∀ (e : String)
      (ext : Except String (List (String × List ExternalRule))),
      GenerateSigmaRules.mainExit (Except.error e) ext = 1) ∧
    (∀ (ls : List LogSource) (e : String),
      GenerateSigmaRules.mainExit (Except.ok ls) (Except.error e) = 1) ∧
    (∀ (ls : List LogSource) (a : Except String Unit) (e : String),
      Part004B.mainExit (Except.ok ls) a (Except.error e) = 1) :=
  ⟨fun _ _ _ _ => rfl, fun _ _ => rfl, fun _ _ => rfl, fun _ _ _ => rfl⟩

/-- Claim C7, confirmed: the deterministic identifier of the part_001
organiser is a pure function of the (techniqueId, title, source) input:
identical inputs always produce character-for-character identical
identifiers. -/
theorem c7_deterministic_identifier :
    ∀ t₁ n₁ s₁ t₂ n₂ s₂ : String,
      t₁ = t₂ → n₁ = n₂ → s₁ = s₂ →
      Part001.sigmaIdOf t₁ n₁ s₁ = Part001.sigmaIdOf t₂ n₂ s₂ := by
  intro t₁ n₁ s₁ t₂ n₂ s₂ ht hn hs
  rw [ht, hn, hs]

set_option maxRecDepth 8000 in
/-- Claim C7, witness: the determinism statement applied at a concrete
input, together with the concrete identifier value it evaluates to. -/
theorem c7_deterministic_identifier_witness :
    Part001.sigmaIdOf "T1486" "Some Rule" "sigma" =
      Part001.sigmaIdOf "T1486" "Some Rule" "sigma" ∧
    Part001.sigmaIdOf "T1486" "Some Rule" "sigma" =
      "05dff58e-05df-45df-a5df-05dff58e0000" :=
  ⟨c7_deterministic_identifier "T1486" "Some Rule" "sigma"
    "T1486" "Some Rule" "sigma" rfl rfl rfl, by decide⟩

/-- Claim C9, counterexample: the intelligent-generator emit loop uses the
actor name and technique identifier verbatim, so the scenario input yields
`linux/auditd/FIN7/T1486.yml`, not the claimed
`linux/auditd/fin7/t1486.yml`. -/
theorem c9_counterexample :
    IntelligentA.rulePath lsLinuxAuditd "FIN7" "T1486" =
      ["linux", "auditd", "FIN7", "T1486.yml"] ∧
    IntelligentA.rulePath lsLinuxAuditd "FIN7" "T1486" ≠
      ["linux", "auditd", "fin7", "t1486.yml"] := by decide

/-- Claim C9, amended: the part_002 emit loop lowercases the technique
identifier and sanitizes the actor (lowercase, whitespace runs to
underscores), giving exactly `linux/auditd/fin7/t1486.yml` on the scenario
input, and its sanitized actor segment never contains whitespace; the
intelligent-generator variants instead use the actor and the technique
identifier verbatim in the artifact path. -/
theorem c9_amended :
    Part002.rulePath lsLinuxAuditd "FIN7" "T1486" =
      ["linux", "auditd", "fin7", "t1486.yml"] ∧
    (∀ actor : String,
      ((Part002.sanitizeActor actor).data.all fun c => !jsWs c) = true) ∧
    (∀ (ls : LogSource) (actor techniqueId : String),
      IntelligentA.rulePath ls actor techniqueId =
        [ls.product, ls.service, actor, techniqueId ++ ".yml"]) := by
  refine ⟨by decide, ?_, fun ls a t => rfl⟩
  intro actor
  exact collapseWsAux_no_ws false _

/-- Claim C5, counterexample: in the part_002 variant a rule whose product
is `"unknown"` passes the product/category filter (absent and unknown
products act as wildcards) and is even selected as the best rule for a log
source, contradicting the claim that such rules are never a strict match
in the synthesizer's filter step. -/
theorem c5_counterexample :
    rUnknownProd.product = some "unknown" ∧
    rUnknownProd ∈ Part002.findMatchingRules [rUnknownProd] lsLinuxAuditd ∧
    Part002.bestRule [rUnknownProd] lsLinuxAuditd = some rUnknownProd := by
  decide

/-- Claim C5, amended: the strict filter of `findBestMatch` in
`generate-sigma-rules.js` does exclude every rule whose product is absent,
empty or `"unknown"` — any surviving rule carries a truthy product that is
not `"unknown"` and equals the log source product; the part_002
`findMatchingRules` filter instead treats absent or unknown products as
wildcards. -/
theorem c5_amended :
    ∀ (rules : List ExternalRule) (ls : LogSource) (r : ExternalRule),
      r ∈ GenerateSigmaRules.strictMatches rules ls →
      ∃ p, jsTruthy r.product = some p ∧ p ≠ "unknown" ∧ p = ls.product := by
  intro rules ls r hr
  have hf : GenerateSigmaRules.strictFilter ls r = true :=
    (List.mem_filter.mp hr).2
  unfold GenerateSigmaRules.strictFilter at hf
  cases hp : jsTruthy r.product with
  | none =>
    rw [hp] at hf
    simp at hf
  | some p =>
    rw [hp] at hf
    have hu : p ≠ "unknown" := by
      intro hu
      subst hu
      simp at hf
    have hprod : p = ls.product := by
      by_cases hq : p = ls.product
      · exact hq
      · simp [hu, hq] at hf
    exact ⟨p, rfl, hu, hprod⟩

/-- Claim C5, witness: the amended statement applied to a concrete rule
surviving the strict filter. -/
theorem c5_amended_witness :
    rLinuxSigma ∈ GenerateSigmaRules.strictMatches [rLinuxSigma]
      lsLinuxAuditd ∧
    ∃ p, jsTruthy rLinuxSigma.product = some p ∧ p ≠ "unknown" ∧
      p = lsLinuxAuditd.product :=
  ⟨by decide,
   c5_amended [rLinuxSigma] lsLinuxAuditd rLinuxSigma (by decide)⟩

theorem find?_spec {α : Type} (p : α → Bool) (l : List α) (a : α)
    (h : l.find? p = some a) : a ∈ l ∧ p a = true := by
  induction l with
  | nil => simp [List.find?] at h
  | cons x xs ih =>
    by_cases hx : p x = true
    · simp only [List.find?, hx] at h
      obtain rfl := Option.some.inj h
      exact ⟨List.mem_cons_self _ _, hx⟩
    · have hx' : p x = false := Bool.eq_false_iff.mpr hx
      simp only [List.find?, hx'] at h
      obtain ⟨hmem, hpa⟩ := ih h
      exact ⟨List.mem_cons_of_mem _ hmem, hpa⟩

theorem find?_none_spec {α : Type} (p : α → Bool) (l : List α)
    (h : l.find? p = none) : ∀ x ∈ l, p x = false := by
  induction l with
  | nil => intro x hx; simp at hx
  | cons y ys ih =>
    intro x hx
    by_cases hy : p y = true
    · simp only [List.find?, hy] at h
      exact Option.noConfusion h
    · have hy' : p y = false := Bool.eq_false_iff.mpr hy
      simp only [List.find?, hy'] at h
      rcases List.mem_cons.mp hx with rfl | hxs
      · exact hy'
      · exact ih h x hxs

/-- Claim C2, counterexample: in the part_002 variant, with a filtered
candidate set containing a splunk rule before a sigma rule and no
service match, the selection takes the first candidate in list order (the
splunk rule) instead of preferring the sigma rule, contradicting the
claimed sigma-before-elastic-before-splunk precedence. -/
theorem c2_counterexample :
    Part002.bestRule [rSplunkSyslog, rSigmaSyslog] lsLinuxAuditd =
      some rSplunkSyslog ∧
    rSplunkSyslog.source = "splunk" ∧
    rSigmaSyslog ∈ Part002.findMatchingRules [rSplunkSyslog, rSigmaSyslog]
      lsLinuxAuditd ∧
    rSigmaSyslog.source = "sigma" ∧
    ((Part002.findMatchingRules [rSplunkSyslog, rSigmaSyslog]
        lsLinuxAuditd).all
      fun r => r.service != some lsLinuxAuditd.service) = true := by
  decide

/-- Claim C2, amended: the claimed strict precedence — first service
match, else first sigma rule, else first elastic rule, else first
remaining candidate — holds for `findBestMatch` in
`generate-sigma-rules.js`; the part_002 selection instead takes the first
service match if any exists and otherwise the first filtered candidate in
list order with no source-type preference, and the part_001 pick prefers
sigma then elastic with no service comparison. -/
theorem c2_amended :
    ∀ (rules : List ExternalRule) (ls : LogSource) (r : ExternalRule),
      GenerateSigmaRules.findBestMatch rules ls = some r →
      (GenerateSigmaRules.strictMatches rules ls ≠ [] ∧
       ((∃ x ∈ GenerateSigmaRules.strictMatches rules ls,
           x.service = some ls.service) →
         (GenerateSigmaRules.strictMatches rules ls).find?
           (fun x => x.service == some ls.service) = some r) ∧
       ((¬ ∃ x ∈ GenerateSigmaRules.strictMatches rules ls,
           x.service = some ls.service) →
         (∃ x ∈ GenerateSigmaRules.strictMatches rules ls,
           x.source = "sigma") →
         (GenerateSigmaRules.strictMatches rules ls).find?
           (fun x => x.source == "sigma") = some r) ∧
       ((¬ ∃ x ∈ GenerateSigmaRules.strictMatches rules ls,
           x.service = some ls.service) →
         (¬ ∃ x ∈ GenerateSigmaRules.strictMatches rules ls,
           x.source = "sigma") →
         (∃ x ∈ GenerateSigmaRules.strictMatches rules ls,
           x.source = "elastic") →
         (GenerateSigmaRules.strictMatches rules ls).find?
           (fun x => x.source == "elastic") = some r) ∧
       ((¬ ∃ x ∈ GenerateSigmaRules.strictMatches rules ls,
           x.service = some ls.service) →
         (¬ ∃ x ∈ GenerateSigmaRules.strictMatches rules ls,
           x.source = "sigma") →
         (¬ ∃ x ∈ GenerateSigmaRules.strictMatches rules ls,
           x.source = "elastic") →
         (GenerateSigmaRules.strictMatches rules ls).head? = some r)) := by
  intro rules ls r h
  unfold GenerateSigmaRules.findBestMatch at h
  by_cases hempty : (GenerateSigmaRules.strictMatches rules ls).isEmpty
  · rw [if_pos hempty] at h
    exact absurd h (by simp)
  · rw [if_neg hempty] at h
    have hne : GenerateSigmaRules.strictMatches rules ls ≠ [] := by
      intro hnil
      rw [hnil] at hempty
      exact hempty rfl
    cases hsvc : (GenerateSigmaRules.strictMatches rules ls).find?
        (fun x => x.service == some ls.service) with
    | some x =>
      rw [hsvc] at h
      have hex : ∃ y ∈ GenerateSigmaRules.strictMatches rules ls,
          y.service = some ls.service :=
        ⟨x, (find?_spec _ _ _ hsvc).1,
         beq_iff_eq.mp (find?_spec _ _ _ hsvc).2⟩
      exact ⟨hne, fun _ => h, fun hn _ => absurd hex hn,
        fun hn _ _ => absurd hex hn, fun hn _ _ => absurd hex hn⟩
    | none =>
      rw [hsvc] at h
      have hnsvc : ¬ ∃ y ∈ GenerateSigmaRules.strictMatches rules ls,
          y.service = some ls.service := by
        rintro ⟨y, hym, hys⟩
        have h₁ := find?_none_spec _ _ hsvc y hym
        rw [beq_iff_eq.mpr hys] at h₁
        exact absurd h₁ (by simp)
      cases hsig : (GenerateSigmaRules.strictMatches rules ls).find?
          (fun x => x.source == "sigma") with
      | some x =>
        rw [hsig] at h
        have hex : ∃ y ∈ GenerateSigmaRules.strictMatches rules ls,
            y.source = "sigma" :=
          ⟨x, (find?_spec _ _ _ hsig).1,
           beq_iff_eq.mp (find?_spec _ _ _ hsig).2⟩
        exact ⟨hne, fun hs => absurd hs hnsvc, fun _ _ => h,
          fun _ hn _ => absurd hex hn, fun _ hn _ => absurd hex hn⟩
      | none =>
        rw [hsig] at h
        have hnsig : ¬ ∃ y ∈ GenerateSigmaRules.strictMatches rules ls,
            y.source = "sigma" := by
          rintro ⟨y, hym, hys⟩
          have h₁ := find?_none_spec _ _ hsig y hym
          rw [beq_iff_eq.mpr hys] at h₁
          exact absurd h₁ (by simp)
        cases hela : (GenerateSigmaRules.strictMatches rules ls).find?
            (fun x => x.source == "elastic") with
        | some x =>
          rw [hela] at h
          have hex : ∃ y ∈ GenerateSigmaRules.strictMatches rules ls,
              y.source = "elastic" :=
            ⟨x, (find?_spec _ _ _ hela).1,
             beq_iff_eq.mp (find?_spec _ _ _ hela).2⟩
          exact ⟨hne, fun hs => absurd hs hnsvc,
            fun _ hs => absurd hs hnsig, fun _ _ _ => h,
            fun _ _ hn => absurd hex hn⟩
        | none =>
          rw [hela] at h
          have hnela : ¬ ∃ y ∈ GenerateSigmaRules.strictMatches rules ls,
              y.source = "elastic" := by
            rintro ⟨y, hym, hys⟩
            have h₁ := find?_none_spec _ _ hela y hym
            rw [beq_iff_eq.mpr hys] at h₁
            exact absurd h₁ (by simp)
          exact ⟨hne, fun hs => absurd hs hnsvc,
            fun _ hs => absurd hs hnsig, fun _ _ hs => absurd hs hnela,
            fun _ _ _ => h⟩

/-- Claim C2, witness: the amended precedence statement applied to a
concrete one-rule candidate list on which `findBestMatch` picks the
service match. -/
theorem c2_amended_witness :
    GenerateSigmaRules.strictMatches [rLinuxSigma] lsLinuxAuditd ≠ [] ∧
    ((∃ x ∈ GenerateSigmaRules.strictMatches [rLinuxSigma] lsLinuxAuditd,
        x.service = some lsLinuxAuditd.service) →
      (GenerateSigmaRules.strictMatches [rLinuxSigma] lsLinuxAuditd).find?
        (fun x => x.service == some lsLinuxAuditd.service) =
        some rLinuxSigma) ∧
    ((¬ ∃ x ∈ GenerateSigmaRules.strictMatches [rLinuxSigma] lsLinuxAuditd,
        x.service = some lsLinuxAuditd.service) →
      (∃ x ∈ GenerateSigmaRules.strictMatches [rLinuxSigma] lsLinuxAuditd,
        x.source = "sigma") →
      (GenerateSigmaRules.strictMatches [rLinuxSigma] lsLinuxAuditd).find?
        (fun x => x.source == "sigma") = some rLinuxSigma) ∧
    ((¬ ∃ x ∈ GenerateSigmaRules.strictMatches [rLinuxSigma] lsLinuxAuditd,
        x.service = some lsLinuxAuditd.service) →
      (¬ ∃ x ∈ GenerateSigmaRules.strictMatches [rLinuxSigma] lsLinuxAuditd,
        x.source = "sigma") →
      (∃ x ∈ GenerateSigmaRules.strictMatches [rLinuxSigma] lsLinuxAuditd,
        x.source = "elastic") →
      (GenerateSigmaRules.strictMatches [rLinuxSigma] lsLinuxAuditd).find?
        (fun x => x.source == "elastic") = some rLinuxSigma) ∧
    ((¬ ∃ x ∈ GenerateSigmaRules.strictMatches [rLinuxSigma] lsLinuxAuditd,
        x.service = some lsLinuxAuditd.service) →
      (¬ ∃ x ∈ GenerateSigmaRules.strictMatches [rLinuxSigma] lsLinuxAuditd,
        x.source = "sigma") →
      (¬ ∃ x ∈ GenerateSigmaRules.strictMatches [rLinuxSigma] lsLinuxAuditd,
        x.source = "elastic") →
      (GenerateSigmaRules.strictMatches [rLinuxSigma]
        lsLinuxAuditd).head? = some rLinuxSigma) :=
  c2_amended [rLinuxSigma] lsLinuxAuditd rLinuxSigma (by decide)

/-- Claim C8, counterexample: the emit loops validate technique
identifiers against `^T\d+(\.\d+)?$`, not the spec pattern
`T\d{4}(\.\d{3})?`; the identifier `T123` fails the spec pattern yet an
artifact is written for it. -/
theorem c8_counterexample :
    specTechIdPattern "T123" = false ∧
    IntelligentB.generatedPaths [] [("T123", ["FIN7"])] [lsAuditdFM] =
      [["linux", "auditd", "FIN7", "T123.yml"]] := by decide

/-- Claim C8, amended: every artifact the emit loop writes is for a
technique identifier that passes the code's gate `^T\d+(\.\d+)?$` (one or
more digits, optional dotted suffix of one or more digits) — the
specifically malformed `TX123` fails that gate and produces no artifact —
but identifiers such as `T123` that fail the spec's stricter
`T\d{4}(\.\d{3})?` pattern are still emitted. -/
theorem c8_amended :
    (∀ (names : List (String × String))
       (actorTechMap : List (String × List String))
       (logsources : List LogSource) (p : List String),
      p ∈ IntelligentB.generatedPaths names actorTechMap logsources →
      ∃ tid, jsTechIdPattern tid = true ∧
        p.getLast? = some (tid ++ ".yml")) ∧
    jsTechIdPattern "TX123" = false ∧
    IntelligentB.generatedPaths [] [("TX123", ["FIN7"])] [lsAuditdFM] =
      [] := by
  refine ⟨?_, by decide, by decide⟩
  intro names actorTechMap logsources p hp
  unfold IntelligentB.generatedPaths at hp
  rw [List.mem_flatMap] at hp
  obtain ⟨e, _, hp⟩ := hp
  rw [List.mem_flatMap] at hp
  obtain ⟨ls, _, hp⟩ := hp
  cases hbd : IntelligentB.buildDetectionForTechnique e.1
      ((names.lookup e.1).getD e.1) ls with
  | none =>
    rw [hbd] at hp
    simp at hp
  | some det =>
    rw [hbd] at hp
    rw [List.mem_filterMap] at hp
    obtain ⟨actor, _, heq⟩ := hp
    by_cases hpat : jsTechIdPattern e.1 = true
    · rw [if_pos hpat] at heq
      obtain rfl := Option.some.inj heq
      exact ⟨e.1, hpat, rfl⟩
    · rw [if_neg hpat] at heq
      exact Option.noConfusion heq

/-- Claim C8, witness: the amended statement applied to a concrete
generated artifact for the well-formed identifier `T1059.001`. -/
theorem c8_amended_witness :
    (["linux", "auditd", "APT1", "T1059.001.yml"] ∈
      IntelligentB.generatedPaths [] [("T1059.001", ["APT1"])]
        [lsAuditdFM]) ∧
    ∃ tid, jsTechIdPattern tid = true ∧
      (["linux", "auditd", "APT1", "T1059.001.yml"] : List String).getLast? =
        some (tid ++ ".yml") :=
  ⟨by decide,
   c8_amended.1 [] [("T1059.001", ["APT1"])] [lsAuditdFM]
     ["linux", "auditd", "APT1", "T1059.001.yml"] (by decide)⟩
